import Mathlib

/-!
# Chunked transcription pipeline — verification of the spec against the code

Shallow embedding of the chunked transcription pipeline of `src/utils.py`
(`SecurityManager`, `TempFileManager`, `FileChunker`, `TranscriptionProcessor`)
together with the default configuration of `src/config.py`.

Modelling conventions:
* Python byte strings are `List Nat`, file names are `String`.
* Python floats are modelled as exact rationals `ℚ`; `int(x)` is truncation
  toward zero (`pyInt`), `x % m` for `m > 0` is `x - m * ⌊x / m⌋` (`pyMod`),
  `x // m` is `⌊x / m⌋`.
* The remote Whisper call is an oracle `Nat → Except String String` giving the
  outcome of attempt `n` (`.ok text` or `.error message`); `time.sleep` and
  `progress_callback` are recorded as events rather than performed.
* Raised exceptions are `Except.error` carrying the message string.
-/

namespace EchoForge

/-! ## Python primitives -/

/-- Python `int(q)` on a float: truncation toward zero. -/
def pyInt (q : ℚ) : Int :=
  if 0 ≤ q then ⌊q⌋ else ⌈q⌉

/-- Python `a % b` for floats with `b > 0`: `a - b * ⌊a / b⌋` (sign of divisor). -/
def pyMod (a b : ℚ) : ℚ :=
  a - b * ⌊a / b⌋

/-- Python `a // b` (float floor division). -/
def pyFloorDiv (a b : ℚ) : ℚ :=
  ⌊a / b⌋

/-- Python `str.zfill`-style left zero padding used by `{n:0Nd}` format specs
(for the non-negative values the pipeline produces). -/
def padZeros (width : Nat) (s : String) : String :=
  if s.length < width then String.mk (List.replicate (width - s.length) '0') ++ s
  else s

/-- Render a natural number zero-padded to the given width (`{n:0Nd}`). -/
def padNat (width : Nat) (n : Nat) : String :=
  padZeros width (toString n)

/-- `pat in s` on Python strings: substring containment over characters. -/
def pyContains (s pat : String) : Bool :=
  (List.range (s.data.length + 1)).any fun i => pat.data.isPrefixOf (s.data.drop i)

/-- Python `str.lower` (ASCII case folding, which is all the pipeline needs). -/
def pyLower (s : String) : String :=
  String.mk (s.data.map Char.toLower)

/-- `os.path.splitext(name)[1]`: the extension of the final path component,
i.e. the substring from the last `.` on, empty when every character before the
last `.` is itself a `.` (so dotfiles have no extension). -/
def splitextExt (name : String) : String :=
  let base := (name.data.reverse.takeWhile (fun c => c ≠ '/')).reverse
  let extRev := base.reverse.takeWhile (fun c => c ≠ '.')
  if extRev.length = base.length then ""  -- no dot at all
  else
    let stem := base.take (base.length - (extRev.length + 1))
    if stem.all (fun c => c = '.') then ""
    else String.mk ('.' :: extRev.reverse)

/-! ## SecurityManager (`src/utils.py:291`-`323`) -/

/-- The magic-number prefixes checked by `validate_file_security`. -/
def magicNumbers : List (List Nat) :=
  [[0x49, 0x44, 0x33],       -- b'ID3'  (MP3)
   [0x52, 0x49, 0x46, 0x46], -- b'RIFF' (WAV)
   [0x00, 0x00, 0x00],       -- b'\x00\x00\x00' (MP4/M4A)
   [0x66, 0x4C, 0x61, 0x43], -- b'fLaC' (FLAC)
   [0x4F, 0x67, 0x67, 0x53]] -- b'OggS' (OGG)

/-- The extension allow-list of `validate_file_security`. -/
def allowedExtensions : List String :=
  [".mp3", ".wav", ".m4a", ".mp4", ".flac", ".ogg"]

/-- `SecurityManager.validate_file_security(file_bytes, filename)`. -/
def validate_file_security (fileBytes : List Nat) (filename : String) :
    Bool × String :=
  let maxSize := 25 * 1024 * 1024
  if fileBytes.length > maxSize then
    (false, "Dosya çok büyük")
  else
    let fileExt := splitextExt (pyLower filename)
    if ¬ (allowedExtensions.contains fileExt) then
      (false, "Desteklenmeyen dosya türü: " ++ fileExt)
    else
      let fileStart := fileBytes.take 8
      let isValidAudio := magicNumbers.any (fun magic => magic.isPrefixOf fileStart)
      if ¬ isValidAudio then
        (false, "Dosya geçerli bir ses dosyası değil")
      else
        (true, "OK")

/-! ## FileChunker (`src/utils.py:421`-`469`) -/

/-- `FileChunker.should_chunk_file(file_size_mb, threshold_mb)`:
`return file_size_mb > threshold_mb`. -/
def should_chunk_file (file_size_mb threshold_mb : ℚ) : Bool :=
  file_size_mb > threshold_mb

/-- One chunk produced by `FileChunker.chunk_audio_file` (the `data` buffer is
identified by the chunk's position, the timing fields are in seconds). -/
structure Chunk where
  start_time : ℚ
  end_time : ℚ
  duration : ℚ
  deriving Repr, DecidableEq

/-- The number of iterations of `for i in range(0, audioLenMs, chunkLenMs)`. -/
def numChunks (audioLenMs chunkLenMs : Nat) : Nat :=
  (audioLenMs + chunkLenMs - 1) / chunkLenMs

/-- The chunk built at loop index `i = k * chunkLenMs`: PyDub slicing clamps to
the end of the audio, so `len(chunk) = min(chunkLenMs, audioLenMs - i)`, and the
dict records `start_time = i/1000`, `end_time = min(i + chunkLenMs, len(audio))/1000`,
`duration = len(chunk)/1000`. -/
def chunkAt (audioLenMs chunkLenMs k : Nat) : Chunk :=
  let i := k * chunkLenMs
  { start_time := (i : ℚ) / 1000
    end_time := min (((i + chunkLenMs : Nat) : ℚ) / 1000) ((audioLenMs : ℚ) / 1000)
    duration := (((min chunkLenMs (audioLenMs - i) : Nat)) : ℚ) / 1000 }

/-- The successful-decode body of `FileChunker.chunk_audio_file`, as a function
of the decoded audio length in milliseconds and `chunk_duration_seconds * 1000`. -/
def chunkRanges (audioLenMs chunkLenMs : Nat) : List Chunk :=
  (List.range (numChunks audioLenMs chunkLenMs)).map (chunkAt audioLenMs chunkLenMs)

/-- `FileChunker.chunk_audio_file`: `decode = some L` means
`AudioSegment.from_file` decoded audio of `L` milliseconds; `decode = none`
means decoding raised, in which case the `except` branch logs and returns `[]`. -/
def chunk_audio_file (decode : Option Nat) (chunk_duration_seconds : Nat) :
    List Chunk :=
  match decode with
  | some audioLenMs => chunkRanges audioLenMs (chunk_duration_seconds * 1000)
  | none => []

/-! ## TranscriptionProcessor._call_whisper_api (`src/utils.py:624`-`664`) -/

/-- The rate-limit classification of `_call_whisper_api`:
`"Rate limit" in error_message or "rate_limit_exceeded" in error_message`. -/
def isRateLimitMsg (msg : String) : Bool :=
  pyContains msg "Rate limit" || pyContains msg "rate_limit_exceeded"

/-- The observable outcome of one `_call_whisper_api` invocation chain:
how many attempts were made, the sleeps performed in order (seconds), and the
returned transcript or raised exception message. -/
structure CallTrace where
  attempts : Nat
  sleeps : List ℚ
  result : Except String String
  deriving Repr

/-- `TranscriptionProcessor._call_whisper_api(audio_file, language, format,
retry_count)` with `self.max_retries = maxRetries`, the remote call modelled by
`oracle` (`oracle n` is what attempt number `n` does).  On an error message
classified as rate limiting the code sleeps 5 s and retries while
`retry_count < 3`; on any other error it retries with `2 ^ retry_count` s of
backoff while `retry_count < maxRetries`; past either cap it raises. -/
def call_whisper_api (oracle : Nat → Except String String) (maxRetries : Nat) :
    Nat → CallTrace
  | retry_count =>
    match oracle retry_count with
    | .ok transcript => { attempts := 1, sleeps := [], result := .ok transcript }
    | .error msg =>
      if hrl : isRateLimitMsg msg then
        -- time.sleep(5) happens before the retry-cap test
        if h : retry_count < 3 then
          let rest := call_whisper_api oracle maxRetries (retry_count + 1)
          { attempts := rest.attempts + 1, sleeps := 5 :: rest.sleeps,
            result := rest.result }
        else
          { attempts := 1, sleeps := [5],
            result := .error ("Rate limit exceeded after retries: " ++ msg) }
      else
        if h : retry_count < maxRetries then
          let rest := call_whisper_api oracle maxRetries (retry_count + 1)
          { attempts := rest.attempts + 1,
            sleeps := ((2 : ℚ) ^ retry_count) :: rest.sleeps,
            result := rest.result }
        else
          { attempts := 1, sleeps := [],
            result := .error ("API call failed after retries: " ++ msg) }
  termination_by retry_count => (max 3 maxRetries + 1) - retry_count
  decreasing_by
  · omega
  · omega

/-! ## Time formatting (`src/utils.py:686`-`699`) -/

/-- Python `{n:0Wd}`: zero-padded decimal rendering of an integer; a negative
value keeps its sign inside the padding width. -/
def padInt (width : Nat) (n : Int) : String :=
  if n < 0 then "-" ++ padNat (width - 1) (-n).toNat
  else padNat width n.toNat

/-- Round to nearest with ties to even, the rounding used by Python float
formatting. -/
def roundHalfEven (q : ℚ) : Int :=
  if q - ⌊q⌋ < 1/2 then ⌊q⌋
  else if q - ⌊q⌋ > 1/2 then ⌊q⌋ + 1
  else if ⌊q⌋ % 2 = 0 then ⌊q⌋ else ⌊q⌋ + 1

/-- Python `{v:0W.Pf}` fixed-point formatting: round half-even at `prec`
decimal places, render with exactly `prec` decimals, zero-pad to `width`. -/
def pyFixed (width prec : Nat) (q : ℚ) : String :=
  let scaled := roundHalfEven (|q| * 10 ^ prec)
  let ip := scaled.toNat / 10 ^ prec
  let fp := scaled.toNat % 10 ^ prec
  let core := toString ip ++ "." ++ padNat prec fp
  if q < 0 then "-" ++ padZeros (width - 1) core else padZeros width core

/-- `TranscriptionProcessor._seconds_to_srt_time(seconds)`:
`int(seconds // 3600)`, `int((seconds % 3600) // 60)`, `int(seconds % 60)`,
`int((seconds % 1) * 1000)`, rendered `{h:02d}:{m:02d}:{s:02d},{ms:03d}`. -/
def seconds_to_srt_time (seconds : ℚ) : String :=
  let hours := pyInt (pyFloorDiv seconds 3600)
  let minutes := pyInt (pyFloorDiv (pyMod seconds 3600) 60)
  let secs := pyInt (pyMod seconds 60)
  let millisecs := pyInt (pyMod seconds 1 * 1000)
  padInt 2 hours ++ ":" ++ padInt 2 minutes ++ ":" ++ padInt 2 secs
    ++ "," ++ padInt 3 millisecs

/-- `TranscriptionProcessor._seconds_to_vtt_time(seconds)`:
`int(seconds // 3600)`, `int((seconds % 3600) // 60)`, and the *float*
`secs = seconds % 60` rendered `{secs:06.3f}`, i.e. `{h:02d}:{m:02d}:{secs:06.3f}`. -/
def seconds_to_vtt_time (seconds : ℚ) : String :=
  let hours := pyInt (pyFloorDiv seconds 3600)
  let minutes := pyInt (pyFloorDiv (pyMod seconds 3600) 60)
  let secs := pyMod seconds 60
  padInt 2 hours ++ ":" ++ padInt 2 minutes ++ ":" ++ pyFixed 6 3 secs

/-- Modelled from the spec (§4.5 time formatting), for comparison with the
source formatter: "given total seconds `s`, `hours = floor(s/3600)`,
`minutes = floor((s mod 3600)/60)`, `seconds = floor(s mod 60)`,
`millis = round((s mod 1) * 1000)`; all fields zero-padded to their format's
width", in the SRT shape `HH:MM:SS,mmm`. -/
def spec_srt_time (s : ℚ) : String :=
  padNat 2 (⌊s / 3600⌋).toNat ++ ":" ++ padNat 2 (⌊pyMod s 3600 / 60⌋).toNat
    ++ ":" ++ padNat 2 (⌊pyMod s 60⌋).toNat
    ++ "," ++ padNat 3 (round (pyMod s 1 * 1000)).toNat

/-! ## Pipeline model (`src/utils.py:484`-`684`)

The observable side effects of one pipeline invocation are recorded as an
event list: progress-callback percentages, successful temp-file acquisitions
and cleanup calls on existing temp paths (`cleanup_temp_file(None)` touches no
file and is not an event), remote API invocation chains, and logged chunk
errors.  Wall-clock fields (`processing_time`) and the `file_size_mb` echo are
omitted; `chunk_audio_file`'s own whole-input temp file is internal to
segmentation and not modelled as an event.  The per-chunk transcription chain
`_call_whisper_api` is abstracted at this layer as an oracle
`api : Nat → Except String String` giving the chain's final outcome for the
segment at each position (`_process_single_file` uses position 0). -/

/-- Observable pipeline events. -/
inductive Ev where
  | progress (pct : ℚ)
  | tempCreate
  | tempCleanup
  | apiCall
  | logError
  deriving Repr, DecidableEq

/-- One entry of the `transcripts` list built by `_process_large_file`. -/
structure SegmentResult where
  text : String
  start_time : ℚ
  end_time : ℚ
  duration : ℚ
  deriving Repr, DecidableEq

/-- The result dict of `process_audio_file` (`chunks_processed` is only
present on the large-file path). -/
structure Outcome where
  transcript : String
  chunk_count : Nat
  chunks_processed : Option Nat
  deriving Repr, DecidableEq

/-- `TranscriptionProcessor._merge_timestamped_transcripts(transcripts, format_type)`. -/
def merge_timestamped_transcripts (transcripts : List SegmentResult)
    (format_type : String) : String :=
  if format_type = "srt" then
    String.join ((List.range transcripts.length).zip transcripts |>.map
      fun p => toString (p.1 + 1) ++ "\n" ++ seconds_to_srt_time p.2.start_time
        ++ " --> " ++ seconds_to_srt_time p.2.end_time ++ "\n" ++ p.2.text ++ "\n\n")
  else if format_type = "vtt" then
    "WEBVTT\n\n" ++ String.join (transcripts.map
      fun t => seconds_to_vtt_time t.start_time ++ " --> "
        ++ seconds_to_vtt_time t.end_time ++ "\n" ++ t.text ++ "\n\n")
  else
    String.intercalate " " (transcripts.map SegmentResult.text)

/-- The `for i, chunk in enumerate(chunks)` loop of `_process_large_file`,
started at position `i` with `total` chunks overall.  Per chunk: the progress
callback fires first; a failed temp-file creation skips the chunk (`continue`);
a failed API chain is logged, the temp file cleaned, and the chunk skipped;
success appends a `SegmentResult` carrying the chunk's timing. -/
def processChunksFrom (total : Nat) (tempOk : Nat → Bool)
    (api : Nat → Except String String) :
    Nat → List Chunk → List SegmentResult × List Ev
  | _, [] => ([], [])
  | i, c :: rest =>
    let prog := Ev.progress (25 + ((i : ℚ) / (total : ℚ)) * 60)
    if tempOk i then
      match api i with
      | .ok t =>
        let r := processChunksFrom total tempOk api (i + 1) rest
        ({ text := t, start_time := c.start_time, end_time := c.end_time,
           duration := c.duration } :: r.1,
         prog :: Ev.tempCreate :: Ev.apiCall :: Ev.tempCleanup :: r.2)
      | .error _ =>
        let r := processChunksFrom total tempOk api (i + 1) rest
        (r.1, prog :: Ev.tempCreate :: Ev.apiCall :: Ev.logError :: Ev.tempCleanup :: r.2)
    else
      let r := processChunksFrom total tempOk api (i + 1) rest
      (r.1, prog :: r.2)

/-- `TranscriptionProcessor._process_large_file`: segment, loop over chunks
(skipping failures), merge.  Never raises: it always returns an `Outcome`. -/
def process_large_file (decode : Option Nat) (chunk_duration_seconds : Nat)
    (tempOk : Nat → Bool) (api : Nat → Except String String)
    (response_format : String) : Outcome × List Ev :=
  let chunks := chunk_audio_file decode chunk_duration_seconds
  let r := processChunksFrom chunks.length tempOk api 0 chunks
  let full :=
    if response_format = "text" then
      String.intercalate " " (r.1.map SegmentResult.text)
    else merge_timestamped_transcripts r.1 response_format
  ({ transcript := full, chunk_count := chunks.length,
     chunks_processed := some r.1.length },
   Ev.progress 20 :: Ev.progress 25 :: r.2 ++ [Ev.progress 90])

/-- `TranscriptionProcessor._process_single_file`: one temp-file acquisition,
one API chain; an API failure cleans the temp file and re-raises; a temp
creation failure raises before any acquisition (the except-branch
`cleanup_temp_file(None)` is a no-op). -/
def process_single_file (tempOk : Bool) (api : Except String String) :
    Except String Outcome × List Ev :=
  if tempOk then
    match api with
    | .ok t =>
      (.ok { transcript := t, chunk_count := 1, chunks_processed := none },
       [Ev.progress 30, Ev.tempCreate, Ev.progress 60, Ev.apiCall,
        Ev.tempCleanup, Ev.progress 100])
    | .error e =>
      (.error e,
       [Ev.progress 30, Ev.tempCreate, Ev.progress 60, Ev.apiCall, Ev.tempCleanup])
  else
    (.error "Geçici dosya oluşturulamadı", [Ev.progress 30])

/-- `TranscriptionProcessor.process_audio_file`: security validation first
(failure raises `"Güvenlik hatası: ..."` with no further work), then the size
check against `self.config.get('max_file_size_mb', 20)` routes to the
single-file or large-file path. -/
def process_audio_file (max_file_size_mb : ℚ) (chunk_duration_seconds : Nat)
    (fileBytes : List Nat) (fileName : String) (decode : Option Nat)
    (tempOk : Nat → Bool) (api : Nat → Except String String)
    (response_format : String) : Except String Outcome × List Ev :=
  let v := validate_file_security fileBytes fileName
  if v.1 = false then
    (.error ("Güvenlik hatası: " ++ v.2), [])
  else
    let file_size_mb : ℚ := (fileBytes.length : ℚ) / (1024 * 1024)
    if should_chunk_file file_size_mb max_file_size_mb then
      let r := process_large_file decode chunk_duration_seconds tempOk api
        response_format
      (.ok r.1, Ev.progress 10 :: r.2)
    else
      let r := process_single_file (tempOk 0) (api 0)
      (r.1, Ev.progress 10 :: r.2)

/-- The `max_file_size_mb` entry of `ADVANCED_CONFIG` (`src/config.py:1008`),
also the chunking threshold read by `process_audio_file`. -/
def ADVANCED_CONFIG_max_file_size_mb : ℚ := 25

/-- The `chunk_duration_seconds` entry of `ADVANCED_CONFIG` (`src/config.py:1009`). -/
def ADVANCED_CONFIG_chunk_duration_seconds : Nat := 300

/-- The progress percentages carried by an event list, in emission order. -/
def progressOf (evs : List Ev) : List ℚ :=
  evs.filterMap fun e => match e with | .progress p => some p | _ => none

end EchoForge

namespace EchoForge

/-! ## Claim theorems (first batch) -/

/-- **C7.** For every file size strictly greater than the threshold,
`should_chunk_file` returns `true`; for every size at or below the threshold,
including exactly at the threshold, it returns `false`. -/
theorem should_chunk_file_iff_gt (file_size_mb threshold_mb : ℚ) :
    (file_size_mb > threshold_mb → should_chunk_file file_size_mb threshold_mb = true)
    ∧ (file_size_mb ≤ threshold_mb → should_chunk_file file_size_mb threshold_mb = false)
    ∧ should_chunk_file threshold_mb threshold_mb = false := by
  refine ⟨fun h => ?_, fun h => ?_, ?_⟩
  · simpa [should_chunk_file]
  · simpa [should_chunk_file, not_lt]
  · simp [should_chunk_file]

/-- Witness for C7 at concrete sizes (threshold 20, sizes 21 and 20). -/
theorem should_chunk_file_iff_gt_witness :
    should_chunk_file 21 20 = true ∧ should_chunk_file 20 20 = false := by
  refine ⟨(should_chunk_file_iff_gt 21 20).1 (by norm_num),
          (should_chunk_file_iff_gt 20 20).2.1 (by norm_num)⟩

/-- **C3.** A client with `max_retries = 3` whose remote call fails with a
generic (non-rate-limit) transient error on every attempt performs exactly 4
attempts, sleeping `2 ^ n` seconds after failed attempt `n` for `n = 0, 1, 2`,
and then raises a terminal error carrying the last underlying message. -/
theorem call_whisper_api_transient_exhaustion (m : Nat → String)
    (hm : ∀ n, isRateLimitMsg (m n) = false) :
    call_whisper_api (fun n => .error (m n)) 3 0 =
      { attempts := 4, sleeps := [2 ^ 0, 2 ^ 1, 2 ^ 2],
        result := .error ("API call failed after retries: " ++ m 3) } := by
  rw [call_whisper_api, call_whisper_api, call_whisper_api, call_whisper_api]
  simp [hm]

/-- Witness for C3: the always-failing oracle with message `"boom"`. -/
theorem call_whisper_api_transient_exhaustion_witness :
    (∀ n, isRateLimitMsg ((fun _ : Nat => "boom") n) = false) ∧
    call_whisper_api (fun n => .error ((fun _ : Nat => "boom") n)) 3 0 =
      { attempts := 4, sleeps := [2 ^ 0, 2 ^ 1, 2 ^ 2],
        result := .error ("API call failed after retries: " ++ "boom") } :=
  ⟨fun _ => rfl,
   call_whisper_api_transient_exhaustion (fun _ => "boom") (fun _ => rfl)⟩

/-- **C4.** Rate-limited calls retry on a fixed 5-second delay, at most 3
retries: an always-rate-limited oracle gives 4 attempts, every sleep fixed at
5 s, and a terminal error carrying the last message; an oracle rate-limited on
the first 2 attempts that succeeds on the third returns the successful text
after exactly 2 fixed 5-second sleeps. -/
theorem call_whisper_api_rate_limit_policy (t : String) (m m2 : Nat → String)
    (oracle : Nat → Except String String)
    (hm : ∀ n, isRateLimitMsg (m n) = true)
    (h0 : oracle 0 = .error (m2 0)) (hm0 : isRateLimitMsg (m2 0) = true)
    (h1 : oracle 1 = .error (m2 1)) (hm1 : isRateLimitMsg (m2 1) = true)
    (h2 : oracle 2 = .ok t) :
    call_whisper_api (fun n => .error (m n)) 3 0 =
      { attempts := 4, sleeps := [5, 5, 5, 5],
        result := .error ("Rate limit exceeded after retries: " ++ m 3) }
    ∧ call_whisper_api oracle 3 0 =
      { attempts := 3, sleeps := [5, 5], result := .ok t } := by
  constructor
  · rw [call_whisper_api, call_whisper_api, call_whisper_api, call_whisper_api]
    simp [hm]
  · rw [call_whisper_api, call_whisper_api, call_whisper_api]
    simp [h0, h1, h2, hm0, hm1]

/-- Witness for C4: concrete rate-limit message and an oracle that is
rate-limited twice then succeeds. -/
theorem call_whisper_api_rate_limit_policy_witness :
    ((∀ n, isRateLimitMsg ((fun _ : Nat => "Rate limit hit") n) = true) ∧
      (fun n => if n < 2 then Except.error "Rate limit hit" else .ok "t") 0 =
        Except.error ((fun _ : Nat => "Rate limit hit") 0) ∧
      (fun n => if n < 2 then Except.error "Rate limit hit" else .ok "t") 2 =
        Except.ok "t") ∧
    call_whisper_api (fun n => .error ((fun _ : Nat => "Rate limit hit") n)) 3 0 =
      { attempts := 4, sleeps := [5, 5, 5, 5],
        result := .error ("Rate limit exceeded after retries: " ++ "Rate limit hit") }
    ∧ call_whisper_api
        (fun n => if n < 2 then Except.error "Rate limit hit" else .ok "t") 3 0 =
      { attempts := 3, sleeps := [5, 5], result := .ok "t" } :=
  ⟨⟨fun _ => rfl, rfl, rfl⟩,
   call_whisper_api_rate_limit_policy "t" (fun _ => "Rate limit hit")
     (fun _ => "Rate limit hit")
     (fun n => if n < 2 then Except.error "Rate limit hit" else .ok "t")
     (fun _ => rfl) rfl rfl rfl rfl rfl⟩

/-- Routing lemma: a payload that passes validation and exceeds the threshold
takes the large-file path. -/
theorem process_audio_file_large_route (th : ℚ) (cd : Nat) (fb : List Nat)
    (fn : String) (decode : Option Nat) (tempOk : Nat → Bool)
    (api : Nat → Except String String) (fmt : String)
    (hv : (validate_file_security fb fn).1 = true)
    (hc : should_chunk_file ((fb.length : ℚ) / (1024 * 1024)) th = true) :
    process_audio_file th cd fb fn decode tempOk api fmt =
      (.ok (process_large_file decode cd tempOk api fmt).1,
       Ev.progress 10 :: (process_large_file decode cd tempOk api fmt).2) := by
  simp [process_audio_file, hv, hc]

/-- Routing lemma: a payload that passes validation and is at or below the
threshold takes the single-file path. -/
theorem process_audio_file_single_route (th : ℚ) (cd : Nat) (fb : List Nat)
    (fn : String) (decode : Option Nat) (tempOk : Nat → Bool)
    (api : Nat → Except String String) (fmt : String)
    (hv : (validate_file_security fb fn).1 = true)
    (hc : should_chunk_file ((fb.length : ℚ) / (1024 * 1024)) th = false) :
    process_audio_file th cd fb fn decode tempOk api fmt =
      ((process_single_file (tempOk 0) (api 0)).1,
       Ev.progress 10 :: (process_single_file (tempOk 0) (api 0)).2) := by
  simp [process_audio_file, hv, hc]

/-- The per-chunk loop with always-succeeding temp files keeps exactly the
segments whose API chain succeeded, in input order, and carries their texts. -/
theorem processChunksFrom_texts (total : Nat) (api : Nat → Except String String) :
    ∀ (cs : List Chunk) (i : Nat),
      (processChunksFrom total (fun _ => true) api i cs).1.map SegmentResult.text
        = (List.range' i cs.length).filterMap (fun k => (api k).toOption) := by
  intro cs
  induction cs with
  | nil => intro i; simp [processChunksFrom]
  | cons c rest ih =>
    intro i
    rw [processChunksFrom]
    cases h : api i with
    | ok t =>
      simp only [h, if_true, List.length_cons, List.range'_succ,
        List.filterMap_cons, List.map_cons, Except.toOption]
      rw [ih (i + 1)]
      rfl
    | error e =>
      simp only [h, if_true, List.length_cons, List.range'_succ,
        List.filterMap_cons, Except.toOption]
      rw [ih (i + 1)]
      rfl

/-- **C1.** In segmented mode every segment whose transcription chain ends in
a fatal error is skipped and processing continues: the text-format transcript
is the space-join of the successful segments' texts in input order,
`chunks_processed` counts exactly the successful segments, and `chunk_count`
counts all segments; in single-file mode a fatal failure propagates
immediately as the invocation's error.  The spec's scenario (segment #2 of 4
failing) is included concretely. -/
theorem large_file_skips_failed_segments (L cd : Nat)
    (api : Nat → Except String String) (e : String) :
    ((process_large_file (some L) cd (fun _ => true) api "text").1.transcript
       = String.intercalate " "
           ((List.range (chunk_audio_file (some L) cd).length).filterMap
             fun k => (api k).toOption))
    ∧ ((process_large_file (some L) cd (fun _ => true) api "text").1.chunks_processed
       = some ((List.range (chunk_audio_file (some L) cd).length).filterMap
             fun k => (api k).toOption).length)
    ∧ ((process_large_file (some L) cd (fun _ => true) api "text").1.chunk_count
       = (chunk_audio_file (some L) cd).length)
    ∧ (process_single_file true (.error e)
       = (.error e, [Ev.progress 30, Ev.tempCreate, Ev.progress 60, Ev.apiCall,
           Ev.tempCleanup]))
    ∧ ((process_large_file (some 1000000) 300 (fun _ => true)
          (fun i => if i = 1 then .error "boom" else .ok ("s" ++ toString (i + 1)))
          "text").1
       = { transcript := "s1 s3 s4", chunk_count := 4, chunks_processed := some 3 }) := by
  have htext := processChunksFrom_texts (chunk_audio_file (some L) cd).length api
    (chunk_audio_file (some L) cd) 0
  rw [← List.range_eq_range'] at htext
  refine ⟨?_, ?_, ?_, ?_, ?_⟩
  · simp [process_large_file, htext]
  · have hlen : (processChunksFrom (chunk_audio_file (some L) cd).length
        (fun _ => true) api 0 (chunk_audio_file (some L) cd)).1.length
        = ((List.range (chunk_audio_file (some L) cd).length).filterMap
            fun k => (api k).toOption).length := by
      rw [← htext, List.length_map]
    simp [process_large_file, hlen]
  · simp [process_large_file]
  · rfl
  · rfl

/-- **C2 (amended).** When decoding fails the segmenter returns the empty
sequence, and the large-file path then completes *successfully* with an empty
transcript, `chunk_count = 0` and `chunks_processed = 0` — the decode failure
is not surfaced as an error. -/
theorem decode_failure_yields_empty_success (cd : Nat) (tempOk : Nat → Bool)
    (api : Nat → Except String String) :
    chunk_audio_file none cd = []
    ∧ process_large_file none cd tempOk api "text"
      = ({ transcript := "", chunk_count := 0, chunks_processed := some 0 },
         [Ev.progress 20, Ev.progress 25, Ev.progress 90]) :=
  ⟨rfl, rfl⟩

/-- **C2 counterexample.** A whole pipeline invocation whose segmentation
decoding fails (threshold 0 MB so a 3-byte valid MP3 takes the segmented path)
returns a *successful* outcome, not a hard error, contradicting the claim that
the decoding failure is surfaced as a fatal error of the invocation. -/
theorem decode_failure_counterexample :
    (process_audio_file 0 300 [0x49, 0x44, 0x33] "a.mp3" none (fun _ => true)
        (fun _ => .ok "x") "text").1
      = .ok { transcript := "", chunk_count := 0, chunks_processed := some 0 } := by
  rw [process_audio_file_large_route 0 300 [0x49, 0x44, 0x33] "a.mp3" none
    (fun _ => true) (fun _ => .ok "x") "text" rfl
    (by simp [should_chunk_file])]
  rfl

/-- **C6.** A security-validation failure terminates the invocation with a
security error before any event — no temp file, no progress, no API call; and
on the single-file path with a successfully acquired temp file, exactly one
temp file is acquired and exactly one cleanup happens, whether the API chain
returns or raises. -/
theorem security_gate_and_single_temp_lifecycle (threshold : ℚ) (cd : Nat)
    (fileBytes : List Nat) (fileName : String) (decode : Option Nat)
    (tempOk : Nat → Bool) (api : Nat → Except String String) (fmt : String)
    (apiRes : Except String String)
    (hv : (validate_file_security fileBytes fileName).1 = false) :
    process_audio_file threshold cd fileBytes fileName decode tempOk api fmt
      = (.error ("Güvenlik hatası: "
          ++ (validate_file_security fileBytes fileName).2), [])
    ∧ (process_single_file true apiRes).2.count Ev.tempCreate = 1
    ∧ (process_single_file true apiRes).2.count Ev.tempCleanup = 1 := by
  refine ⟨?_, ?_, ?_⟩
  · simp [process_audio_file, hv]
  · cases apiRes <;> rfl
  · cases apiRes <;> rfl

/-- Witness for C6: a `.exe` upload fails validation with no events, and a
successful single-file run acquires and releases exactly one temp file. -/
theorem security_gate_and_single_temp_lifecycle_witness :
    (validate_file_security [1, 2, 3] "x.exe").1 = false
    ∧ (process_audio_file 25 300 [1, 2, 3] "x.exe" none (fun _ => true)
          (fun _ => .ok "hi") "text"
        = (.error ("Güvenlik hatası: "
            ++ (validate_file_security [1, 2, 3] "x.exe").2), [])
      ∧ (process_single_file true (.ok "hi")).2.count Ev.tempCreate = 1
      ∧ (process_single_file true (.ok "hi")).2.count Ev.tempCleanup = 1) :=
  ⟨rfl, security_gate_and_single_temp_lifecycle 25 300 [1, 2, 3] "x.exe" none
    (fun _ => true) (fun _ => .ok "hi") "text" (.ok "hi") rfl⟩

/-- **C10.** Under the default configuration the chunking threshold is the
`max_file_size_mb` value 25, the same number the validator enforces as the
byte ceiling, so every payload that passes security validation is at most
25 MiB, `should_chunk_file` returns `false` on it, and `process_audio_file`
always takes the single-file path: the segmented path is unreachable through
the public operation with defaults. -/
theorem default_config_single_path (cd : Nat) (fb : List Nat) (fn : String)
    (decode : Option Nat) (tempOk : Nat → Bool)
    (api : Nat → Except String String) (fmt : String)
    (hv : (validate_file_security fb fn).1 = true) :
    fb.length ≤ 25 * 1024 * 1024
    ∧ should_chunk_file ((fb.length : ℚ) / (1024 * 1024))
        ADVANCED_CONFIG_max_file_size_mb = false
    ∧ process_audio_file ADVANCED_CONFIG_max_file_size_mb cd fb fn decode
        tempOk api fmt
      = ((process_single_file (tempOk 0) (api 0)).1,
         Ev.progress 10 :: (process_single_file (tempOk 0) (api 0)).2) := by
  have hlen : fb.length ≤ 25 * 1024 * 1024 := by
    by_contra hgt
    push_neg at hgt
    simp [validate_file_security, hgt] at hv
  have hq : ((fb.length : ℚ) / (1024 * 1024)) ≤ 25 := by
    rw [div_le_iff₀ (by norm_num)]
    have : (fb.length : ℚ) ≤ 26214400 := by exact_mod_cast hlen
    linarith
  have hsc : should_chunk_file ((fb.length : ℚ) / (1024 * 1024))
      ADVANCED_CONFIG_max_file_size_mb = false := by
    simp only [should_chunk_file, ADVANCED_CONFIG_max_file_size_mb,
      decide_eq_false_iff_not, not_lt]
    exact hq
  exact ⟨hlen, hsc, process_audio_file_single_route _ cd fb fn decode tempOk
    api fmt hv hsc⟩

/-- Witness for C10: a minimal valid MP3 payload. -/
theorem default_config_single_path_witness :
    (validate_file_security [0x49, 0x44, 0x33] "a.mp3").1 = true
    ∧ ([0x49, 0x44, 0x33] : List Nat).length ≤ 25 * 1024 * 1024
    ∧ should_chunk_file ((([0x49, 0x44, 0x33] : List Nat).length : ℚ) / (1024 * 1024))
        ADVANCED_CONFIG_max_file_size_mb = false
    ∧ process_audio_file ADVANCED_CONFIG_max_file_size_mb 300 [0x49, 0x44, 0x33]
        "a.mp3" none (fun _ => true) (fun _ => .ok "hi") "text"
      = ((process_single_file true (Except.ok "hi")).1,
         Ev.progress 10 :: (process_single_file true (Except.ok "hi")).2) :=
  ⟨rfl, default_config_single_path 300 [0x49, 0x44, 0x33] "a.mp3" none
    (fun _ => true) (fun _ => .ok "hi") "text" rfl⟩

/-- `pyMod` is the scaled fractional part. -/
theorem pyMod_eq_fract (a b : ℚ) (hb : b ≠ 0) :
    pyMod a b = b * Int.fract (a / b) := by
  unfold pyMod Int.fract
  rw [mul_sub, mul_comm b (a / b), div_mul_cancel₀ a hb]

/-- `0 ≤ a % b` for `0 < b` (Python float modulo with positive divisor). -/
theorem pyMod_nonneg (a b : ℚ) (hb : 0 < b) : 0 ≤ pyMod a b := by
  rw [pyMod_eq_fract a b (ne_of_gt hb)]
  exact mul_nonneg (le_of_lt hb) (Int.fract_nonneg _)

/-- `a % b < b` for `0 < b`. -/
theorem pyMod_lt (a b : ℚ) (hb : 0 < b) : pyMod a b < b := by
  rw [pyMod_eq_fract a b (ne_of_gt hb)]
  calc b * Int.fract (a / b) < b * 1 := by
        exact mul_lt_mul_of_pos_left (Int.fract_lt_one _) hb
    _ = b := mul_one b

/-- `int(q)` is `⌊q⌋` on non-negative values. -/
theorem pyInt_eq_floor (q : ℚ) (hq : 0 ≤ q) : pyInt q = ⌊q⌋ := by
  simp [pyInt, hq]

/-- `{n:0Wd}` on a non-negative integer is plain zero-padding. -/
theorem padInt_eq_padNat (w : Nat) (n : Int) (hn : 0 ≤ n) :
    padInt w n = padNat w n.toNat := by
  simp [padInt, not_lt.mpr hn]

/-- **C8 (amended).** For every non-negative `s`, both formatters compute
`hours = floor(s/3600)`, `minutes = floor((s mod 3600)/60)` zero-padded to
width 2; the SRT formatter renders `seconds = floor(s mod 60)` and
`millis = floor((s mod 1) * 1000)` — truncation, not rounding — as
`HH:MM:SS,mmm`; the VTT formatter renders the seconds field as the exact
remainder `s mod 60` fixed-point formatted to 3 decimals (rounded half-even)
and zero-padded to width 6, as `HH:MM:SS.mmm`; the minute, second and
millisecond fields stay below 60, 60 and 1000. -/
theorem time_format_fields (s : ℚ) (hs : 0 ≤ s) :
    seconds_to_srt_time s
      = padNat 2 (⌊s / 3600⌋).toNat ++ ":" ++ padNat 2 (⌊pyMod s 3600 / 60⌋).toNat
        ++ ":" ++ padNat 2 (⌊pyMod s 60⌋).toNat ++ ","
        ++ padNat 3 (⌊pyMod s 1 * 1000⌋).toNat
    ∧ seconds_to_vtt_time s
      = padNat 2 (⌊s / 3600⌋).toNat ++ ":" ++ padNat 2 (⌊pyMod s 3600 / 60⌋).toNat
        ++ ":" ++ pyFixed 6 3 (pyMod s 60)
    ∧ (⌊pyMod s 3600 / 60⌋).toNat < 60
    ∧ (⌊pyMod s 60⌋).toNat < 60
    ∧ (⌊pyMod s 1 * 1000⌋).toNat < 1000 := by
  have h3600 : (0 : ℚ) < 3600 := by norm_num
  have h60 : (0 : ℚ) < 60 := by norm_num
  have h1 : (0 : ℚ) < 1 := by norm_num
  have hhours : pyInt (pyFloorDiv s 3600) = ⌊s / 3600⌋ := by
    rw [pyFloorDiv, pyInt_eq_floor _ (by positivity), Int.floor_intCast]
  have hmin : pyInt (pyFloorDiv (pyMod s 3600) 60) = ⌊pyMod s 3600 / 60⌋ := by
    have : (0 : ℚ) ≤ (⌊pyMod s 3600 / 60⌋ : ℚ) := by
      have := pyMod_nonneg s 3600 h3600
      positivity
    rw [pyFloorDiv, pyInt_eq_floor _ this, Int.floor_intCast]
  have hsec : pyInt (pyMod s 60) = ⌊pyMod s 60⌋ :=
    pyInt_eq_floor _ (pyMod_nonneg s 60 h60)
  have hms : pyInt (pyMod s 1 * 1000) = ⌊pyMod s 1 * 1000⌋ :=
    pyInt_eq_floor _ (mul_nonneg (pyMod_nonneg s 1 h1) (by norm_num))
  have hfh : (0 : Int) ≤ ⌊s / 3600⌋ := Int.floor_nonneg.mpr (by positivity)
  have hfm : (0 : Int) ≤ ⌊pyMod s 3600 / 60⌋ :=
    Int.floor_nonneg.mpr (div_nonneg (pyMod_nonneg s 3600 h3600) (le_of_lt h60))
  have hfs : (0 : Int) ≤ ⌊pyMod s 60⌋ :=
    Int.floor_nonneg.mpr (pyMod_nonneg s 60 h60)
  have hfms : (0 : Int) ≤ ⌊pyMod s 1 * 1000⌋ :=
    Int.floor_nonneg.mpr (mul_nonneg (pyMod_nonneg s 1 h1) (by norm_num))
  have hmlt : ⌊pyMod s 3600 / 60⌋ < 60 := by
    rw [Int.floor_lt]
    push_cast
    rw [div_lt_iff₀ h60]
    calc pyMod s 3600 < 3600 := pyMod_lt s 3600 h3600
      _ = 60 * 60 := by norm_num
  have hslt : ⌊pyMod s 60⌋ < 60 := by
    rw [Int.floor_lt]
    exact_mod_cast pyMod_lt s 60 h60
  have hmslt : ⌊pyMod s 1 * 1000⌋ < 1000 := by
    rw [Int.floor_lt]
    push_cast
    calc pyMod s 1 * 1000 < 1 * 1000 :=
          mul_lt_mul_of_pos_right (pyMod_lt s 1 h1) (by norm_num)
      _ = 1000 := by norm_num
  refine ⟨?_, ?_, by omega, by omega, by omega⟩
  · rw [seconds_to_srt_time]
    rw [hhours, hmin, hsec, hms,
      padInt_eq_padNat 2 _ hfh, padInt_eq_padNat 2 _ hfm,
      padInt_eq_padNat 2 _ hfs, padInt_eq_padNat 3 _ hfms]
  · rw [seconds_to_vtt_time]
    rw [hhours, hmin, padInt_eq_padNat 2 _ hfh, padInt_eq_padNat 2 _ hfm]

/-- Witness for C8 (amended) at `s = 3661.5`. -/
theorem time_format_fields_witness :
    (0 : ℚ) ≤ 7323 / 2
    ∧ (seconds_to_srt_time (7323 / 2)
        = padNat 2 (⌊(7323 / 2 : ℚ) / 3600⌋).toNat ++ ":"
          ++ padNat 2 (⌊pyMod (7323 / 2) 3600 / 60⌋).toNat
          ++ ":" ++ padNat 2 (⌊pyMod (7323 / 2) 60⌋).toNat ++ ","
          ++ padNat 3 (⌊pyMod (7323 / 2) 1 * 1000⌋).toNat
      ∧ seconds_to_vtt_time (7323 / 2)
        = padNat 2 (⌊(7323 / 2 : ℚ) / 3600⌋).toNat ++ ":"
          ++ padNat 2 (⌊pyMod (7323 / 2) 3600 / 60⌋).toNat
          ++ ":" ++ pyFixed 6 3 (pyMod (7323 / 2) 60)
      ∧ (⌊pyMod (7323 / 2 : ℚ) 3600 / 60⌋).toNat < 60
      ∧ (⌊pyMod (7323 / 2 : ℚ) 60⌋).toNat < 60
      ∧ (⌊pyMod (7323 / 2 : ℚ) 1 * 1000⌋).toNat < 1000) :=
  ⟨by norm_num, time_format_fields (7323 / 2) (by norm_num)⟩

/-- **C8 counterexample.** At `s = 1/512` (exactly representable in binary
floating point) the source SRT formatter truncates the milliseconds,
`int((s % 1) * 1000) = 1`, while the spec formula rounds,
`round((s mod 1) * 1000) = 2`: the rendered strings differ, so the claim that
the SRT formatter produces `millis = round((s mod 1) * 1000)` is false. -/
theorem srt_millis_truncation_counterexample :
    seconds_to_srt_time (1 / 512) = "00:00:00,001"
    ∧ spec_srt_time (1 / 512) = "00:00:00,002"
    ∧ seconds_to_srt_time (1 / 512) ≠ spec_srt_time (1 / 512) := by
  have hsrt : seconds_to_srt_time (1 / 512) = "00:00:00,001" := by
    rw [seconds_to_srt_time]
    norm_num [pyInt, pyFloorDiv, pyMod]
    rfl
  have hspec : spec_srt_time (1 / 512) = "00:00:00,002" := by
    rw [spec_srt_time]
    norm_num [pyMod, round_eq]
    rfl
  refine ⟨hsrt, hspec, ?_⟩
  rw [hsrt, hspec]
  decide

/-- The progress percentages emitted by the per-chunk loop: one ramp value
`25 + (k / total) * 60` per chunk position `k`, emitted before the chunk is
attempted and therefore present whether the chunk succeeds or fails. -/
theorem processChunksFrom_progress (total : Nat) (tempOk : Nat → Bool)
    (api : Nat → Except String String) :
    ∀ (cs : List Chunk) (i : Nat),
      progressOf (processChunksFrom total tempOk api i cs).2
        = (List.range' i cs.length).map
            (fun (k : Nat) => 25 + ((k : ℚ) / (total : ℚ)) * 60) := by
  intro cs
  induction cs with
  | nil => intro i; simp [processChunksFrom, progressOf]
  | cons c rest ih =>
    intro i
    rw [processChunksFrom]
    cases htmp : tempOk i with
    | true =>
      cases h : api i with
      | ok t =>
        simp only [if_true, List.length_cons, List.range'_succ, List.map_cons,
          progressOf, List.filterMap_cons]
        rw [← progressOf, ih (i + 1)]
      | error e =>
        simp only [if_true, List.length_cons, List.range'_succ, List.map_cons,
          progressOf, List.filterMap_cons]
        rw [← progressOf, ih (i + 1)]
    | false =>
      simp only [Bool.false_eq_true, if_false, List.length_cons,
        List.range'_succ, List.map_cons, progressOf, List.filterMap_cons]
      rw [← progressOf, ih (i + 1)]

/-- **C9 (amended).** On the segmented path the progress sink receives 10 at
analysis, 20 at segmenting, 25 when the segment count is known, one ramp value
`25 + 60 · i / n` per segment `i` of `n` (linear from 25, strictly below 85,
strictly increasing), and 90 at merging — and no completion milestone: the
percentage 100 is never emitted on the segmented path. -/
theorem segmented_progress_milestones (th : ℚ) (cd : Nat) (fb : List Nat)
    (fn : String) (L : Nat) (tempOk : Nat → Bool)
    (api : Nat → Except String String) (fmt : String)
    (hv : (validate_file_security fb fn).1 = true)
    (hc : should_chunk_file ((fb.length : ℚ) / (1024 * 1024)) th = true) :
    progressOf (process_audio_file th cd fb fn (some L) tempOk api fmt).2
      = 10 :: 20 :: 25 ::
        (((List.range (chunk_audio_file (some L) cd).length).map
            (fun (i : Nat) =>
              25 + ((i : ℚ) / ((chunk_audio_file (some L) cd).length : ℚ)) * 60))
          ++ [90])
    ∧ (∀ i, i < (chunk_audio_file (some L) cd).length →
        25 ≤ 25 + ((i : ℚ) / ((chunk_audio_file (some L) cd).length : ℚ)) * 60
        ∧ 25 + ((i : ℚ) / ((chunk_audio_file (some L) cd).length : ℚ)) * 60 < 85)
    ∧ (∀ i j, i < j → j < (chunk_audio_file (some L) cd).length →
        25 + ((i : ℚ) / ((chunk_audio_file (some L) cd).length : ℚ)) * 60
          < 25 + ((j : ℚ) / ((chunk_audio_file (some L) cd).length : ℚ)) * 60)
    ∧ (100 : ℚ) ∉ progressOf (process_audio_file th cd fb fn (some L) tempOk api fmt).2 := by
  have hramp : ∀ i : Nat, i < (chunk_audio_file (some L) cd).length →
      25 ≤ 25 + ((i : ℚ) / ((chunk_audio_file (some L) cd).length : ℚ)) * 60
      ∧ 25 + ((i : ℚ) / ((chunk_audio_file (some L) cd).length : ℚ)) * 60 < 85 := by
    intro i hi
    have hn : (0 : ℚ) < ((chunk_audio_file (some L) cd).length : ℚ) := by
      have : 0 < (chunk_audio_file (some L) cd).length :=
        lt_of_le_of_lt (Nat.zero_le i) hi
      exact_mod_cast this
    have hlt : ((i : ℚ) / ((chunk_audio_file (some L) cd).length : ℚ)) < 1 := by
      rw [div_lt_one hn]
      exact_mod_cast hi
    have hge : (0 : ℚ) ≤ (i : ℚ) / ((chunk_audio_file (some L) cd).length : ℚ) :=
      div_nonneg (by positivity) (le_of_lt hn)
    constructor
    · nlinarith
    · nlinarith
  have hlist : progressOf (process_audio_file th cd fb fn (some L) tempOk api fmt).2
      = 10 :: 20 :: 25 ::
        (((List.range (chunk_audio_file (some L) cd).length).map
            (fun (i : Nat) =>
              25 + ((i : ℚ) / ((chunk_audio_file (some L) cd).length : ℚ)) * 60))
          ++ [90]) := by
    rw [process_audio_file_large_route th cd fb fn (some L) tempOk api fmt hv hc]
    have hloop := processChunksFrom_progress
      (chunk_audio_file (some L) cd).length tempOk api (chunk_audio_file (some L) cd) 0
    rw [← List.range_eq_range'] at hloop
    simp only [process_large_file, progressOf, List.filterMap_cons,
      List.filterMap_append]
    rw [← progressOf, ← progressOf, hloop]
    rfl
  refine ⟨hlist, hramp, ?_, ?_⟩
  · intro i j hij hj
    have hn : (0 : ℚ) < ((chunk_audio_file (some L) cd).length : ℚ) := by
      have : 0 < (chunk_audio_file (some L) cd).length :=
        lt_of_le_of_lt (Nat.zero_le j) hj
      exact_mod_cast this
    have hq : (i : ℚ) / ((chunk_audio_file (some L) cd).length : ℚ)
        < (j : ℚ) / ((chunk_audio_file (some L) cd).length : ℚ) := by
      gcongr
    nlinarith
  · rw [hlist]
    intro hmem
    simp only [List.mem_cons, List.mem_append, List.mem_map, List.mem_range,
      List.mem_singleton] at hmem
    rcases hmem with h | h | h | h | h
    · norm_num at h
    · norm_num at h
    · norm_num at h
    · obtain ⟨i, hi, hival⟩ := h
      have hlt85 := (hramp i hi).2
      rw [hival] at hlt85
      norm_num at hlt85
    · norm_num at h

/-- Witness for C9 (amended): a 3-byte MP3 with threshold 0 and a decoded
length of 400 s cut at 300 s (2 segments). -/
theorem segmented_progress_milestones_witness :
    ((validate_file_security [0x49, 0x44, 0x33] "a.mp3").1 = true
      ∧ should_chunk_file ((([0x49, 0x44, 0x33] : List Nat).length : ℚ) / (1024 * 1024)) 0 = true)
    ∧ (100 : ℚ) ∉ progressOf (process_audio_file 0 300 [0x49, 0x44, 0x33] "a.mp3"
        (some 400000) (fun _ => true) (fun _ => .ok "x") "text").2 :=
  ⟨⟨rfl, by simp [should_chunk_file]⟩,
   (segmented_progress_milestones 0 300 [0x49, 0x44, 0x33] "a.mp3" 400000
     (fun _ => true) (fun _ => .ok "x") "text" rfl
     (by simp [should_chunk_file])).2.2.2⟩

/-- **C9 counterexample.** A concrete segmented run (2 segments, both
successful): the emitted percentages are exactly 10, 20, 25, 25, 55, 90 — the
claimed completion milestone 100 is never delivered to the progress sink, so
the claim that the segmented path ends with "100 at completion" is false. -/
theorem segmented_progress_counterexample :
    progressOf (process_audio_file 0 300 [0x52, 0x49, 0x46, 0x46] "a.wav"
        (some 400000) (fun _ => true) (fun _ => .ok "x") "text").2
      = [10, 20, 25, 25, 55, 90]
    ∧ (100 : ℚ) ∉ progressOf (process_audio_file 0 300 [0x52, 0x49, 0x46, 0x46]
        "a.wav" (some 400000) (fun _ => true) (fun _ => .ok "x") "text").2 := by
  have hlist : progressOf (process_audio_file 0 300 [0x52, 0x49, 0x46, 0x46] "a.wav"
      (some 400000) (fun _ => true) (fun _ => .ok "x") "text").2
      = [10, 20, 25, 25, 55, 90] := by
    rw [process_audio_file_large_route 0 300 [0x52, 0x49, 0x46, 0x46] "a.wav"
      (some 400000) (fun _ => true) (fun _ => .ok "x") "text" rfl
      (by simp [should_chunk_file])]
    have hloop := processChunksFrom_progress
      (chunk_audio_file (some 400000) 300).length (fun _ => true)
      (fun _ => .ok "x") (chunk_audio_file (some 400000) 300) 0
    simp only [process_large_file, progressOf, List.filterMap_cons,
      List.filterMap_append]
    rw [← progressOf, ← progressOf, hloop]
    have hn : (chunk_audio_file (some 400000) 300).length = 2 := rfl
    rw [hn]
    norm_num [List.range', progressOf]
  refine ⟨hlist, ?_⟩
  rw [hlist]
  norm_num

/-- `k` is a chunk index exactly when its cut offset lies inside the audio. -/
theorem lt_numChunks_iff (L c : Nat) (hc : 0 < c) (k : Nat) :
    k < numChunks L c ↔ k * c < L := by
  unfold numChunks
  constructor
  · intro h
    have h2 : (k + 1) * c ≤ L + c - 1 := (Nat.le_div_iff_mul_le hc).mp h
    have h3 : (k + 1) * c = k * c + c := by ring
    clear h
    omega
  · intro h
    have h3 : Nat.succ k * c = k * c + c := by
      rw [Nat.succ_eq_add_one]
      ring
    exact (Nat.le_div_iff_mul_le hc).mpr (by omega)

/-- The cut grid reaches the end of the audio. -/
theorem numChunks_mul_ge (L c : Nat) (hc : 0 < c) : L ≤ numChunks L c * c := by
  by_contra h
  push_neg at h
  exact absurd ((lt_numChunks_iff L c hc (numChunks L c)).mpr h) (lt_irrefl _)

/-- The float `min` in `end_time` is the cast of the clamped offset. -/
theorem chunkAt_end_eq (L c k : Nat) :
    (chunkAt L c k).end_time = ((min (k * c + c) L : Nat) : ℚ) / 1000 := by
  simp only [chunkAt]
  rw [min_div_div_right (by norm_num : (0 : ℚ) ≤ 1000)]
  push_cast
  rfl

/-- Telescoping sum of the clamped window lengths, in seconds. -/
theorem sum_min_div (c L : Nat) :
    ∀ N : Nat, ((List.range N).map
        (fun (k : Nat) => ((min c (L - k * c) : Nat) : ℚ) / 1000)).sum
      = ((min (N * c) L : Nat) : ℚ) / 1000 := by
  intro N
  induction N with
  | zero => simp
  | succ n ihn =>
    rw [List.range_succ, List.map_append, List.sum_append, ihn]
    simp only [List.map_cons, List.map_nil, List.sum_cons, List.sum_nil, add_zero]
    rw [div_add_div_same]
    congr 1
    have h : min (n * c) L + min c (L - n * c) = min ((n + 1) * c) L := by
      have h3 : (n + 1) * c = n * c + c := by ring
      omega
    exact_mod_cast h

/-- **C5.** For every decoded audio of `L` ms cut into windows of `c` ms
(`c > 0`): consecutive chunks are contiguous (`end_time` meets the next
`start_time`) and strictly ordered by `start_time`; every chunk satisfies
`end_time - start_time = duration` with positive duration; the durations sum
to the total `L / 1000` seconds exactly; when the audio is non-empty the first
chunk starts at 0 and the last chunk ends at `L / 1000`, so the ranges cover
`[0, L/1000)` with no gaps or overlaps; and a 1000-second stream cut at 300
seconds yields 4 chunks with durations 300, 300, 300, 100 and start times
0, 300, 600, 900. -/
theorem chunk_segmentation_invariants (L c : Nat) (hc : 0 < c) :
    List.Chain' (fun a b => a.end_time = b.start_time ∧ a.start_time < b.start_time)
      (chunkRanges L c)
    ∧ (∀ ch ∈ chunkRanges L c,
        ch.end_time - ch.start_time = ch.duration ∧ 0 < ch.duration)
    ∧ ((chunkRanges L c).map Chunk.duration).sum = (L : ℚ) / 1000
    ∧ (0 < L →
        (chunkRanges L c).head? = some (chunkAt L c 0)
        ∧ (chunkAt L c 0).start_time = 0
        ∧ (chunkRanges L c).getLast? = some (chunkAt L c (numChunks L c - 1))
        ∧ (chunkAt L c (numChunks L c - 1)).end_time = (L : ℚ) / 1000)
    ∧ chunk_audio_file (some 1000000) 300
      = [{ start_time := 0, end_time := 300, duration := 300 },
         { start_time := 300, end_time := 600, duration := 300 },
         { start_time := 600, end_time := 900, duration := 300 },
         { start_time := 900, end_time := 1000, duration := 100 }] := by
  refine ⟨?_, ?_, ?_, ?_, ?_⟩
  · rw [chunkRanges, List.chain'_map]
    rcases Nat.eq_zero_or_pos (numChunks L c) with h0 | hpos
    · rw [h0]
      simp
    · obtain ⟨M, hM⟩ : ∃ M, numChunks L c = M + 1 := ⟨numChunks L c - 1, by omega⟩
      rw [hM]
      rw [show M + 1 = M.succ from rfl, List.chain'_range_succ]
      intro m hm
      simp only [Nat.succ_eq_add_one]
      have hm1 : (m + 1) * c < L := by
        refine (lt_numChunks_iff L c hc (m + 1)).mp ?_
        omega
      have h3 : (m + 1) * c = m * c + c := by ring
      constructor
      · rw [chunkAt_end_eq]
        simp only [chunkAt]
        congr 1
        have hmin : min (m * c + c) L = (m + 1) * c := by omega
        exact_mod_cast hmin
      · simp only [chunkAt]
        have hlt : m * c < (m + 1) * c := by omega
        gcongr
  · intro ch hch
    rw [chunkRanges] at hch
    obtain ⟨k, hk, rfl⟩ := List.mem_map.mp hch
    rw [List.mem_range] at hk
    have hkc : k * c < L := (lt_numChunks_iff L c hc k).mp hk
    constructor
    · rw [chunkAt_end_eq]
      show _ - (chunkAt L c k).start_time = (chunkAt L c k).duration
      simp only [chunkAt]
      rw [div_sub_div_same]
      congr 1
      have hle : k * c ≤ min (k * c + c) L := by omega
      have hnat : min (k * c + c) L - k * c = min c (L - k * c) := by omega
      rw [← Nat.cast_sub hle, hnat]
    · simp only [chunkAt]
      have hpos : 0 < min c (L - k * c) := by omega
      have hq : (0 : ℚ) < ((min c (L - k * c) : Nat) : ℚ) := by exact_mod_cast hpos
      exact div_pos hq (by norm_num)
  · rw [chunkRanges, List.map_map]
    have hfun : (Chunk.duration ∘ chunkAt L c)
        = fun (k : Nat) => ((min c (L - k * c) : Nat) : ℚ) / 1000 := by
      funext k
      simp [chunkAt, Function.comp]
    rw [hfun, sum_min_div c L (numChunks L c)]
    congr 1
    have hge := numChunks_mul_ge L c hc
    have hmin : min (numChunks L c * c) L = L := by omega
    exact_mod_cast hmin
  · intro hL
    have hpos : 0 < numChunks L c := (lt_numChunks_iff L c hc 0).mpr (by omega)
    obtain ⟨M, hM⟩ : ∃ M, numChunks L c = M + 1 := ⟨numChunks L c - 1, by omega⟩
    refine ⟨?_, ?_, ?_, ?_⟩
    · rw [chunkRanges, hM, List.range_succ_eq_map]
      simp
    · simp [chunkAt]
    · rw [chunkRanges, List.getLast?_eq_getElem?]
      simp only [List.length_map, List.length_range]
      rw [List.getElem?_map,
        List.getElem?_range (by omega : numChunks L c - 1 < numChunks L c)]
      rfl
    · rw [chunkAt_end_eq]
      have hge := numChunks_mul_ge L c hc
      have h3 : (numChunks L c - 1) * c + c = numChunks L c * c := by
        rw [hM]
        have hsub : M + 1 - 1 = M := rfl
        rw [hsub]
        ring
      have hmin : min ((numChunks L c - 1) * c + c) L = L := by omega
      congr 1
      exact_mod_cast hmin
  · simp only [chunk_audio_file, chunkRanges]
    norm_num [numChunks, List.range_succ, chunkAt]

/-- Witness for C5 at the spec scenario: 1,000,000 ms cut at 300,000 ms. -/
theorem chunk_segmentation_invariants_witness :
    0 < 300000
    ∧ (List.Chain' (fun a b => a.end_time = b.start_time ∧ a.start_time < b.start_time)
        (chunkRanges 1000000 300000)
      ∧ (∀ ch ∈ chunkRanges 1000000 300000,
          ch.end_time - ch.start_time = ch.duration ∧ 0 < ch.duration)
      ∧ ((chunkRanges 1000000 300000).map Chunk.duration).sum = (1000000 : ℚ) / 1000
      ∧ (0 < 1000000 →
          (chunkRanges 1000000 300000).head? = some (chunkAt 1000000 300000 0)
          ∧ (chunkAt 1000000 300000 0).start_time = 0
          ∧ (chunkRanges 1000000 300000).getLast?
              = some (chunkAt 1000000 300000 (numChunks 1000000 300000 - 1))
          ∧ (chunkAt 1000000 300000 (numChunks 1000000 300000 - 1)).end_time
              = ((1000000 : Nat) : ℚ) / 1000)
      ∧ chunk_audio_file (some 1000000) 300
        = [{ start_time := 0, end_time := 300, duration := 300 },
           { start_time := 300, end_time := 600, duration := 300 },
           { start_time := 600, end_time := 900, duration := 300 },
           { start_time := 900, end_time := 1000, duration := 100 }]) :=
  ⟨by norm_num, chunk_segmentation_invariants 1000000 300000 (by norm_num)⟩

end EchoForge
